import Mathlib

/-!
Shallow embedding of the strawberry-wormhole module
(`src/wormhole/module.py` and `src/wormhole/database.py`).

The wormhole cog keeps, next to the persistent SQL tables, two in-memory
mirrors (`wormhole_channels : list[int]` and `ban_list : dict`).  We model
the persistent tables as lists of rows in insertion order (SQLAlchemy
returns rows of these tables in that order here) and the dict as an
association list.  UTC datetimes are modelled as integers (the code only
compares them); Discord snowflake ids as naturals.

External collaborators (the discord API, the `pie` framework helpers such
as `utils.text.smart_split`, emoji fetching inside `_get_guild_display`,
i18n translation) are passed in as parameters of the model; translated
strings are modelled by their English source text.

Python-level failures (`AttributeError` on `None.delete()`, `KeyError` on
`del` of an absent dict key) are modelled by returning `none`.
-/

namespace Wormhole

/-- A row of the `wormhole_wormhole_wormholechannel` table: (guild_id, channel_id). -/
abbrev ChannelRow := Nat × Nat

/-- A row of the `wormhole_wormhole_bantimeout` table, and likewise an entry of the
in-memory `ban_list` dict: the author name and the optional expiry time. -/
abbrev BanRow := String × Option Int

/-- The combined persistent and in-memory state of the `Wormhole` cog. -/
structure WormholeState where
  /-- rows of the channel table, in insertion order -/
  storeChannels : List ChannelRow
  /-- the cog attribute `wormhole_channels : list[int]` -/
  cacheChannels : List Nat
  /-- rows of the ban table, in insertion order -/
  storeBans : List BanRow
  /-- the cog attribute `ban_list : dict` (name -> time), as an assoc list -/
  banList : List BanRow
  /-- rows of the `wormhole_wormhole_wormholepatterns` table: (regex_pattern, replacement) -/
  storePatterns : List (String × String)
deriving Repr, DecidableEq

/-- Lookup of a key in the `ban_list` dict (first matching entry). -/
def banLookup : List BanRow → String → Option (Option Int)
  | [], _ => none
  | (n, t) :: rest, name => if n = name then some t else banLookup rest name

/-- First row of the ban table whose `name` column matches; models
`BanTimeout.get(user)` followed by taking element `[0]`. -/
def banFind : List BanRow → String → Option BanRow
  | [], _ => none
  | (n, t) :: rest, name => if n = name then some (n, t) else banFind rest name

/-- Removal of the first entry with the given name: models both deleting the
single fetched `BanTimeout` row and `del self.ban_list[name]`. -/
def banErase : List BanRow → String → List BanRow
  | [], _ => []
  | (n, t) :: rest, name => if n = name then rest else (n, t) :: banErase rest name

/-- Model of `Wormhole.check_if_member_banned` (module.py lines 383-402).
Returns the boolean result together with the possibly updated state;
`none` models the `AttributeError` raised when the expiry branch finds no
database row (`banned_user` is `None` and `.delete()` is called on it).
Note the strict comparison `datetime.datetime.utcnow() > time`, and that a
`None` time (permanent ban) is falsy, so `if not self.ban_list[...]`
returns `False`. -/
def check_if_member_banned (st : WormholeState) (authorName : String) (now : Int) :
    Option (Bool × WormholeState) :=
  match banLookup st.banList authorName with
  | none => some (false, st)
  | some none => some (false, st)
  | some (some t) =>
    if t < now then
      match banFind st.storeBans authorName with
      | none => none
      | some _ =>
        some (false,
          { st with storeBans := banErase st.storeBans authorName,
                    banList := banErase st.banList authorName })
    else
      some (true, st)

/-- Model of `Wormhole.wormhole_unban_user` (module.py lines 663-686).
`none` models a crash: the `AttributeError` from `banned_user.delete()`
when `BanTimeout.get` returned no rows, or the `KeyError` from
`del self.ban_list[user.name]` when the dict has no such key. -/
def wormhole_unban_user (st : WormholeState) (userName : String) :
    Option WormholeState :=
  match banFind st.storeBans userName with
  | none => none
  | some _ =>
    match banLookup st.banList userName with
    | none => none
    | some _ =>
      some { st with storeBans := banErase st.storeBans userName,
                     banList := banErase st.banList userName }

/-- Model of `Wormhole.wormhole_ban_user` (module.py lines 576-622):
rejected with AlreadyExists if the name is already in `ban_list`,
otherwise the row is persisted and the dict updated. -/
def wormhole_ban_user (st : WormholeState) (userName : String)
    (banEnd : Option Int) : Option WormholeState :=
  match banLookup st.banList userName with
  | some _ => none
  | none =>
    some { st with storeBans := st.storeBans ++ [(userName, banEnd)],
                   banList := st.banList ++ [(userName, banEnd)] }

/-- Outcome reported by a registry mutation; `persistFailure` models an
exception raised by `session.commit()` inside the database helper, which
propagates out of the command before the cache line runs. -/
inductive RegErr where
  | alreadyExists
  | notFound
  | persistFailure
deriving Repr, DecidableEq

/-- Model of `WormholeChannel.check_existence` (database.py lines 42-54):
existence is tested by `channel_id` alone. -/
def check_existence (st : WormholeState) (channelId : Nat) : Bool :=
  st.storeChannels.any (fun r => r.2 == channelId)

/-- Model of `WormholeChannel.remove` (database.py lines 25-40): deletes the
rows matching BOTH `guild_id` and `channel_id`. -/
def channelRemove (rows : List ChannelRow) (g c : Nat) : List ChannelRow :=
  rows.filter (fun r => !(r.1 == g && r.2 == c))

/-- Model of `Wormhole.set_wormhole_channel` (module.py lines 404-445).
The slowmode edit on the new channel is external I/O with no effect on
this state.  `persistOk = false` makes `WormholeChannel.add` raise, in
which case neither store nor cache is touched. -/
def set_wormhole_channel (st : WormholeState) (g c : Nat) (persistOk : Bool) :
    WormholeState × Option RegErr :=
  if check_existence st c then
    (st, some .alreadyExists)
  else if persistOk then
    ({ st with storeChannels := st.storeChannels ++ [(g, c)],
               cacheChannels := st.cacheChannels ++ [c] }, none)
  else
    (st, some .persistFailure)

/-- Model of `Wormhole.unset_wormhole_channel` (module.py lines 508-545).
The existence check is by channel id only, while the delete filters by the
invoking guild id `g` and the channel id; the cache line
`self.wormhole_channels.remove(channel.id)` drops the first occurrence.
`persistOk = false` makes `WormholeChannel.remove` raise before the cache
line runs. -/
def unset_wormhole_channel (st : WormholeState) (g c : Nat) (persistOk : Bool) :
    WormholeState × Option RegErr :=
  if !check_existence st c then
    (st, some .notFound)
  else if persistOk then
    ({ st with storeChannels := channelRemove st.storeChannels g c,
               cacheChannels := st.cacheChannels.erase c }, none)
  else
    (st, some .persistFailure)

/-- The in-memory channel cache lists exactly the channel ids of the
persistent store, in the same order. -/
def channelsSynced (st : WormholeState) : Prop :=
  st.cacheChannels = st.storeChannels.map Prod.snd

instance (st : WormholeState) : Decidable (channelsSynced st) := by
  unfold channelsSynced; infer_instance

/-! String primitives used by the formatter, implemented by structural
recursion over the character list so that they evaluate inside the
kernel.  They model the Python `str` methods used by module.py; whitespace
is modelled as the ASCII whitespace characters. -/

/-- ASCII whitespace, for the model of `str.strip` / `str.rstrip`. -/
def isSpaceChar (c : Char) : Bool :=
  c == ' ' || c == '\t' || c == '\n' || c == '\r'

/-- Model of Python `str.startswith`. -/
def strStartsWith (s pre : String) : Bool :=
  pre.data.isPrefixOf s.data

/-- Left-to-right non-overlapping replacement on character lists; the fuel
is the input length (each step consumes at least one character for a
non-empty pattern). -/
def replaceAux (pat rep : List Char) : Nat → List Char → List Char
  | _, [] => []
  | 0, l => l
  | fuel + 1, c :: rest =>
    if pat.isPrefixOf (c :: rest) then
      rep ++ replaceAux pat rep fuel ((c :: rest).drop pat.length)
    else
      c :: replaceAux pat rep fuel rest

/-- Model of Python `str.replace` (all occurrences, left to right). -/
def strReplace (s pat rep : String) : String :=
  ⟨replaceAux pat.data rep.data s.data.length s.data⟩

/-- Model of Python `str.lstrip()`. -/
def strTrimLeft (s : String) : String :=
  ⟨s.data.dropWhile isSpaceChar⟩

/-- Model of Python `str.rstrip()`. -/
def strTrimRight (s : String) : String :=
  ⟨(s.data.reverse.dropWhile isSpaceChar).reverse⟩

/-- Model of Python `str.strip()`. -/
def strTrim (s : String) : String :=
  strTrimRight (strTrimLeft s)

/-- Split of a character list at every newline (always at least one piece),
the model of Python `str.split("\n")`. -/
def splitLinesAux : List Char → List (List Char)
  | [] => [[]]
  | c :: rest =>
    match splitLinesAux rest with
    | [] => [[]]
    | h :: t => if c = '\n' then [] :: h :: t else (c :: h) :: t

/-- Model of Python `str.split("\n")`. -/
def strSplitLines (s : String) : List String :=
  (splitLinesAux s.data).map (fun l => ⟨l⟩)

/-- Constant `STICKER_INVISIBLE_LINK_FORMAT = "[.]({url})"` (module.py line 19). -/
def STICKER_INVISIBLE_LINK_FORMAT (url : String) : String :=
  "[.](" ++ url ++ ")"

/-- The reference attached to a message, with the externally fetched
referenced-message data inlined.  `referenced content = none` models both
an unresolvable reference and one with empty content (both are falsy in
the Python conditions).  `otherKind` covers a reference whose type is
neither reply nor forward, for which `_message_formatter` leaves
`formatted_message` as the empty string. -/
inductive MsgReference where
  | reply (refContent : Option String)
  | forward (refGuildDisplay : String) (refAuthorName refContent : Option String)
  | otherKind
deriving Repr, DecidableEq

/-- An inbound message event.  Attachments are modelled by their byte
sizes; stickers are pre-classified (the classification in `on_message` is
an external `fetch`) into guild-custom sticker urls and standard sticker
ids. -/
structure Msg where
  authorName : String
  authorIsBot : Bool
  channelId : Nat
  content : String
  reference : Option MsgReference
  attachmentSizes : List Nat
  customStickerUrls : List String
  standardStickers : List Nat
deriving Repr, DecidableEq

/-- The leading block-formatting marks checked by `_message_formatter`
(module.py line 178). -/
def marks : List String := ["### ", "## ", "-# ", "# ", ">>> ", "> "]

/-- Value of `marks_to_add_to_start` (module.py lines 180-182). -/
def marksToAdd (content : String) : String :=
  if marks.any (fun mk => strStartsWith content mk) then "\n" else ""

/-- Model of `Wormhole._format_reply_message` (module.py lines 99-125). -/
def format_reply_message (authorName content : String)
    (refContent : Option String) (guildDisplay marksToStart : String) : String :=
  let msgTmp : String :=
    match refContent with
    | some rc => "> " ++ strReplace rc "\n" "\n> "
    | none => "Unknown reference message"
  let kept := (strSplitLines (strTrim msgTmp)).filter
    (fun m => !strStartsWith m "> >")
  let msg := String.join (kept.map (fun m => m ++ "\n"))
  "> " ++ strTrimRight msg ++ "\n**" ++ guildDisplay ++ " " ++ authorName ++ ":** "
    ++ marksToStart ++ content ++ "\n"

/-- Model of `Wormhole._format_forward_message` (module.py lines 127-163).
`refGuildDisplay` stands for the awaited `_get_guild_display` of the
referenced guild (external emoji lookup). -/
def format_forward_message (authorName guildDisplay : String)
    (refGuildDisplay : String) (refAuthorName refContent : Option String) : String :=
  let authorInfo : String :=
    match refAuthorName with
    | some n => refGuildDisplay ++ " " ++ n
    | none => "Unknown author"
  let msgContent : String :=
    match refContent with
    | some rc => strReplace rc "```" ""
    | none => "Unknown forwarded message"
  "**" ++ guildDisplay ++ " " ++ authorName ++ "** *forwarded message from* **"
    ++ authorInfo ++ "** ```" ++ msgContent ++ "```"

/-- Model of `Wormhole._message_formatter` (module.py lines 165-215).
`guildDisplay` stands for the awaited `_get_guild_display` of the source
guild (external emoji lookup); `stickers` is the `saved_stickers` list of
guild-custom sticker urls folded onto the tail. -/
def message_formatter (guildDisplay : String) (m : Msg)
    (stickers : List String) : String :=
  let mstart := marksToAdd m.content
  let formatted : String :=
    match m.reference with
    | some (.reply rc) =>
        format_reply_message m.authorName m.content rc guildDisplay mstart
    | some (.forward gd ra rc) =>
        format_forward_message m.authorName guildDisplay gd ra rc
    | some .otherKind => ""
    | none =>
        "**" ++ guildDisplay ++ " " ++ m.authorName ++ ":** " ++ mstart
          ++ m.content ++ "\n"
  stickers.foldl
    (fun acc s => strTrimRight acc ++ STICKER_INVISIBLE_LINK_FORMAT s) formatted

/-- Environment of one `on_message` run: the external collaborators.
`smartSplit` is `pie.utils.text.smart_split` (not part of this
repository); `resolvesChannel` is whether `bot.get_channel` returns a
channel; `sendOk` is whether sends to that destination succeed (a failing
destination raises on its first send, which the per-channel handler
catches); `deleteOk` is whether `message.delete()` succeeds. -/
structure RelayEnv where
  commandPref : String
  guildDisplay : String
  smartSplit : String → List String
  resolvesChannel : Nat → Bool
  sendOk : Nat → Bool
  deleteOk : Bool

/-- Observable steps of one `on_message` run.  A `sendMsg` records the
destination, the text segment, the stream cursor position of each attached
file at `discord.File` construction time (empty when no files are
attached), the native stickers attached, whether this is the final text
segment, and whether the send passed `allowed_mentions=AllowedMentions.none()`. -/
inductive Action where
  | deleteSource
  | deleteFailed
  | sendMsg (channelId : Nat) (text : String) (fileCursors : List Nat)
      (stickers : List Nat) (lastSegment : Bool) (allowedMentionsNone : Bool)
  | sendFailed (channelId : Nat)
deriving Repr, DecidableEq

/-- The inner `for idx, message_part in enumerate(...)` loop of
`on_message` (module.py lines 335-357) for one destination: files and
stickers are created only when `idx == len(formatted_message_parts) - 1`,
the `discord.File`s being built from the streams at their current cursor
positions, and every send passes `AllowedMentions.none()`. -/
def sendSegmentActs (ch : Nat) (cursors : List Nat) (stickers : List Nat) :
    List String → Nat → Nat → List Action
  | [], _, _ => []
  | p :: rest, i, last =>
    (if i = last then Action.sendMsg ch p cursors stickers true true
     else Action.sendMsg ch p [] [] false true)
      :: sendSegmentActs ch cursors stickers rest (i + 1) last

/-- The outer `for channel_id in self.wormhole_channels` loop of
`on_message` (module.py lines 330-379), threading the attachment stream
cursors.  An unresolved channel is skipped silently.  After a successful
destination the streams have been read to their end by the upload and
`attachment[0].seek(0)` resets every cursor to 0.  A failing destination
raises on its first send; the per-channel handler catches it, logs, and
the loop continues with the cursors as they were (the reset loop inside
the `try` is skipped).  The second component counts the destinations whose
`try` block completed. -/
def relayLoop (env : RelayEnv) (parts : List String) (sizes : List Nat)
    (stickers : List Nat) : List Nat → List Nat → List Action × Nat
  | [], _ => ([], 0)
  | ch :: rest, cursors =>
    if env.resolvesChannel ch then
      if env.sendOk ch then
        ((sendSegmentActs ch cursors stickers parts 0 (parts.length - 1)) ++
            (relayLoop env parts sizes stickers rest (sizes.map (fun _ => 0))).1,
          (relayLoop env parts sizes stickers rest (sizes.map (fun _ => 0))).2 + 1)
      else
        (Action.sendFailed ch ::
            (relayLoop env parts sizes stickers rest cursors).1,
          (relayLoop env parts sizes stickers rest cursors).2)
    else
      relayLoop env parts sizes stickers rest cursors

/-- Model of the listener `Wormhole.on_message` (module.py lines 266-379).
Returns the updated state, the trace of observable actions in program
order, and the number of destinations delivered without error; `none`
models a crash inside the ban check.  The attachment streams start at
cursor 0 because `Attachment.save` seeks back to the beginning after
writing. -/
def on_message (env : RelayEnv) (st : WormholeState) (m : Msg) (now : Int) :
    Option (WormholeState × List Action × Nat) :=
  if m.authorIsBot then some (st, [], 0)
  else if strStartsWith m.content env.commandPref then some (st, [], 0)
  else if !st.cacheChannels.contains m.channelId then some (st, [], 0)
  else
    match check_if_member_banned st m.authorName now with
    | none => none
    | some (true, st1) => some (st1, [], 0)
    | some (false, st1) =>
      let cursors := m.attachmentSizes.map (fun _ => 0)
      let delTrace := if env.deleteOk then [Action.deleteSource] else [Action.deleteFailed]
      let text := message_formatter env.guildDisplay m m.customStickerUrls
      let parts := env.smartSplit text
      let r := relayLoop env parts m.attachmentSizes m.standardStickers
        st1.cacheChannels cursors
      some (st1, delTrace ++ r.1, r.2)

/-- Whether an action is a destination send. -/
def Action.isSend : Action → Bool
  | .sendMsg _ _ _ _ _ _ => true
  | _ => false

/-- Whether a send carried `allowed_mentions=discord.AllowedMentions.none()`
(trivially true for non-sends). -/
def Action.allowedNone : Action → Bool
  | .sendMsg _ _ _ _ _ amn => amn
  | _ => true

/-- Whether a send carries files or native stickers only when it is the
final text segment (trivially true for non-sends). -/
def Action.filesOnlyLast : Action → Bool
  | .sendMsg _ _ cur stk last _ => (cur.isEmpty && stk.isEmpty) || last
  | _ => true

/-- Whether every attached file was built from a stream with its cursor at
position 0 (trivially true for non-sends). -/
def Action.cursorsZero : Action → Bool
  | .sendMsg _ _ cur _ _ _ => cur.all (fun x => x == 0)
  | _ => true

/-- Whether an action is the final-segment send to the given channel: the
one send that may carry files and stickers for that destination. -/
def Action.isLastSendTo (ch : Nat) : Action → Bool
  | .sendMsg c _ _ _ last _ => c == ch && last
  | _ => false

/-- Forgetting the pattern table, to compare states up to it. -/
def stripPat (st : WormholeState) : WormholeState :=
  { st with storePatterns := [] }

/-- Eviction of a named ban from both store and cache, as performed by the
expiry branch of `check_if_member_banned`. -/
def evict (st : WormholeState) (name : String) : WormholeState :=
  { st with storeBans := banErase st.storeBans name,
            banList := banErase st.banList name }

/-! Concrete instances used by counterexamples and witnesses. -/

/-- An environment in which everything external succeeds and the text
splits into a single segment. -/
def envEx : RelayEnv :=
  { commandPref := "!"
    guildDisplay := "[g]"
    smartSplit := fun s => [s]
    resolvesChannel := fun _ => true
    sendOk := fun _ => true
    deleteOk := true }

/-- State with channel 1 registered and a permanent (no-expiry) ban of "alice". -/
def stPermBan : WormholeState := ⟨[], [1], [("alice", none)], [("alice", none)], []⟩

/-- A plain message from "alice" in channel 1. -/
def msgAlice : Msg := ⟨"alice", false, 1, "hello", none, [], [], []⟩

/-- State with channel 1 registered and the two patterns of the spec's
sequential-substitution example stored. -/
def stPatterns : WormholeState := ⟨[], [1], [], [], [("\\d+", "#"), ("#+", "*")]⟩

/-- A message from "bob" whose content is "12". -/
def msgDigits : Msg := ⟨"bob", false, 1, "12", none, [], [], []⟩

/-- A message from "bob" containing a broadcast mention. -/
def msgMention : Msg := ⟨"bob", false, 1, "hi @everyone", none, [], [], []⟩

/-- A message from a bot author. -/
def msgBot : Msg := ⟨"robo", true, 1, "hello", none, [], [], []⟩

/-- An environment that splits every text into three segments. -/
def envSplit3 : RelayEnv :=
  { envEx with smartSplit := fun _ => ["p0", "p1", "p2"] }

/-- State with channels 1 and 2 registered. -/
def stTwoChannels : WormholeState := ⟨[], [1, 2], [], [], []⟩

/-- A message carrying one attachment (5 bytes) and one standard sticker. -/
def msgWithFile : Msg := ⟨"bob", false, 1, "xyz", none, [5], [], [7]⟩

/-- An environment in which sends to channel 2 fail and everything else
succeeds. -/
def envFail2 : RelayEnv :=
  { envEx with sendOk := fun ch => ch != 2 }

/-- State with channels 1, 2 and 3 registered. -/
def stThreeChannels : WormholeState := ⟨[], [1, 2, 3], [], [], []⟩

/-- State with a ban of "alice" expiring at time 100, present in both the
ban table and the `ban_list` dict. -/
def stExpiry : WormholeState :=
  ⟨[], [], [("alice", some 100)], [("alice", some 100)], []⟩

/-- The empty state. -/
def stEmpty : WormholeState := ⟨[], [], [], [], []⟩

/-- State with channel 10 registered under guild 1. -/
def stGuild1 : WormholeState := ⟨[(1, 10)], [10], [], [], []⟩

/-! Helper lemmas about the ban association lists. -/

theorem banLookup_eq_none {l : List BanRow} {name : String}
    (h : name ∉ l.map Prod.fst) : banLookup l name = none := by
  induction l with
  | nil => rfl
  | cons a rest ih =>
    obtain ⟨n, t⟩ := a
    simp only [List.map_cons, List.mem_cons, not_or] at h
    have hne : ¬ n = name := fun he => h.1 he.symm
    simp only [banLookup, if_neg hne]
    exact ih h.2

theorem banFind_eq_none {l : List BanRow} {name : String}
    (h : name ∉ l.map Prod.fst) : banFind l name = none := by
  induction l with
  | nil => rfl
  | cons a rest ih =>
    obtain ⟨n, t⟩ := a
    simp only [List.map_cons, List.mem_cons, not_or] at h
    have hne : ¬ n = name := fun he => h.1 he.symm
    simp only [banFind, if_neg hne]
    exact ih h.2

theorem banLookup_banErase_self (name : String) {l : List BanRow}
    (h : (l.map Prod.fst).Nodup) : banLookup (banErase l name) name = none := by
  induction l with
  | nil => rfl
  | cons a rest ih =>
    obtain ⟨n, t⟩ := a
    simp only [List.map_cons, List.nodup_cons] at h
    by_cases he : n = name
    · subst he
      simp only [banErase, if_pos rfl]
      exact banLookup_eq_none h.1
    · simp only [banErase, if_neg he, banLookup, if_neg he]
      exact ih h.2

theorem banFind_banErase_self (name : String) {l : List BanRow}
    (h : (l.map Prod.fst).Nodup) : banFind (banErase l name) name = none := by
  induction l with
  | nil => rfl
  | cons a rest ih =>
    obtain ⟨n, t⟩ := a
    simp only [List.map_cons, List.nodup_cons] at h
    by_cases he : n = name
    · subst he
      simp only [banErase, if_pos rfl]
      exact banFind_eq_none h.1
    · simp only [banErase, if_neg he, banFind, if_neg he]
      exact ih h.2

/-- C1: the spec says an entry with no expiry is a permanent ban, so the
ban check must return true and block the author's relays.  The code's
`if not self.ban_list[...]: return False` treats the `None` expiry as
falsy: the check returns false and the message is relayed (the trace
below contains a successful send of the permanently banned author's
message).  This contradicts the ban command's own user-facing behaviour,
which reports "User ... was blocked." for a ban without a time. -/
theorem C1_code_behavior :
    check_if_member_banned stPermBan "alice" 0 = some (false, stPermBan) ∧
    on_message envEx stPermBan msgAlice 0 =
      some (stPermBan,
        [Action.deleteSource,
         Action.sendMsg 1 "**[g] alice:** hello\n" [] [] true true], 1) := by
  exact ⟨rfl, by decide⟩

/-- C4: the spec says unbanning a not-banned author fails with a
user-visible NotFound rejection and never a crash.  In the code
`banned_users` is empty, `banned_user` is `None`, and
`banned_user.delete()` raises `AttributeError` - a crash, modelled by
`none`. -/
theorem C4_code_behavior :
    wormhole_unban_user stEmpty "alice" = none := by
  exact rfl

/-- C5 as stated is false at the expiry boundary: with a ban of "alice"
expiring at T = 100, the check at now = T = 100 returns true (the code
compares `utcnow() > time` strictly), while the claim requires false for
now >= T. -/
theorem C5_counterexample :
    check_if_member_banned stExpiry "alice" 100 = some (true, stExpiry) := by
  exact rfl

/-- C5 (amended): for a ban entry with expiry T present in store and
cache, the check returns true when now <= T and false when now > T; the
first check strictly after T evicts the entry from both the ban table and
the `ban_list` dict, so a second check immediately after finds no entry. -/
theorem C5_ban_expiry (st : WormholeState) (name : String) (T now : Int)
    (hcache : banLookup st.banList name = some (some T))
    (hstore : (banFind st.storeBans name).isSome = true)
    (hnc : (st.banList.map Prod.fst).Nodup)
    (hns : (st.storeBans.map Prod.fst).Nodup) :
    (now ≤ T → check_if_member_banned st name now = some (true, st)) ∧
    (T < now →
      check_if_member_banned st name now = some (false, evict st name) ∧
      banLookup (evict st name).banList name = none ∧
      banFind (evict st name).storeBans name = none ∧
      check_if_member_banned (evict st name) name now =
        some (false, evict st name)) := by
  constructor
  · intro hle
    have hnlt : ¬ T < now := by omega
    simp only [check_if_member_banned, hcache, if_neg hnlt]
  · intro hlt
    obtain ⟨r, hr⟩ := Option.isSome_iff_exists.mp hstore
    have hl2 : banLookup (evict st name).banList name = none := by
      simpa [evict] using banLookup_banErase_self name (l := st.banList) hnc
    have hf2 : banFind (evict st name).storeBans name = none := by
      simpa [evict] using banFind_banErase_self name (l := st.storeBans) hns
    refine ⟨?_, hl2, hf2, ?_⟩
    · simp only [check_if_member_banned, hcache, if_pos hlt, hr]
      rfl
    · simp only [check_if_member_banned, hl2]

/-- C5 witness: the amended theorem applied to the concrete state
`stExpiry` (ban of "alice" with expiry 100) at now = 101. -/
theorem C5_witness :
    check_if_member_banned stExpiry "alice" 101 = some (false, evict stExpiry "alice") ∧
    banLookup (evict stExpiry "alice").banList "alice" = none ∧
    banFind (evict stExpiry "alice").storeBans "alice" = none ∧
    check_if_member_banned (evict stExpiry "alice") "alice" 101 =
      some (false, evict stExpiry "alice") := by
  exact (C5_ban_expiry stExpiry "alice" 100 101 rfl rfl (by decide) (by decide)).2
    (by norm_num)

/-- The ban check never touches the pattern table: on a state whose
pattern table is replaced, it returns the same verdict and the same state
up to that replacement. -/
theorem check_banned_setPatterns (st : WormholeState)
    (pats : List (String × String)) (name : String) (now : Int) :
    check_if_member_banned { st with storePatterns := pats } name now =
      (check_if_member_banned st name now).map
        (fun r => (r.1, { r.2 with storePatterns := pats })) := by
  unfold check_if_member_banned
  dsimp only
  cases hb : banLookup st.banList name with
  | none => rfl
  | some topt =>
    cases topt with
    | none => rfl
    | some t =>
      by_cases hlt : t < now
      · simp only [if_pos hlt]
        cases hf : banFind st.storeBans name with
        | none => rfl
        | some r => rfl
      · simp only [if_neg hlt]
        rfl

/-- The ban check never touches the channel registry cache. -/
theorem check_banned_cache {st : WormholeState} {name : String} {now : Int}
    {b : Bool} {st1 : WormholeState}
    (h : check_if_member_banned st name now = some (b, st1)) :
    st1.cacheChannels = st.cacheChannels := by
  unfold check_if_member_banned at h
  split at h
  · simp only [Option.some.injEq, Prod.mk.injEq] at h
    rw [← h.2]
  · simp only [Option.some.injEq, Prod.mk.injEq] at h
    rw [← h.2]
  · split at h
    · split at h
      · cases h
      · simp only [Option.some.injEq, Prod.mk.injEq] at h
        rw [← h.2]
    · simp only [Option.some.injEq, Prod.mk.injEq] at h
      rw [← h.2]

/-- C2 (amended): the relay pipeline applies no pattern substitution at
all: `WormholePatterns` is never consulted by `on_message`, so the trace,
the delivery count and the resulting state (up to the pattern table, which
is merely carried along) are independent of the registered patterns. -/
theorem C2_patterns_unused (env : RelayEnv) (st : WormholeState)
    (pats : List (String × String)) (m : Msg) (now : Int) :
    (on_message env { st with storePatterns := pats } m now).map
      (fun r => (stripPat r.1, r.2)) =
    (on_message env st m now).map (fun r => (stripPat r.1, r.2)) := by
  unfold on_message
  dsimp only
  by_cases h1 : m.authorIsBot
  · simp [h1, stripPat]
  · simp only [h1, if_false, Bool.false_eq_true]
    by_cases h2 : strStartsWith m.content env.commandPref
    · simp [h2, stripPat]
    · simp only [h2, if_false, Bool.false_eq_true]
      by_cases h3 : st.cacheChannels.contains m.channelId
      · simp only [h3, Bool.not_true, if_false, Bool.false_eq_true]
        rw [check_banned_setPatterns]
        cases hc : check_if_member_banned st m.authorName now with
        | none => rfl
        | some r =>
          obtain ⟨b, st1⟩ := r
          cases b
          · simp [stripPat]
          · simp [stripPat]
      · have h3m : ¬ m.channelId ∈ st.cacheChannels := by simpa using h3
        simp [h3, h3m, stripPat]

/-- C2 as stated is false on the code: with the spec's example patterns
[(\d+ -> #), (#+ -> *)] registered (see `stPatterns`), relaying the
message "12" sends the formatted text "**[g] bob:** 12\n" - the digits
pass through untouched and the output is not "*". -/
theorem C2_counterexample :
    stPatterns.storePatterns = [("\\d+", "#"), ("#+", "*")] ∧
    on_message envEx stPatterns msgDigits 0 =
      some (stPatterns,
        [Action.deleteSource,
         Action.sendMsg 1 "**[g] bob:** 12\n" [] [] true true], 1) ∧
    "**[g] bob:** 12\n" ≠ "*" := by
  exact ⟨rfl, by decide, by decide⟩

/-! Trace lemmas for the relay fan-out. -/

theorem sendSegmentActs_mem_allowedNone {ch : Nat} {cursors stickers : List Nat}
    (parts : List String) (i last : Nat) {a : Action}
    (ha : a ∈ sendSegmentActs ch cursors stickers parts i last) :
    a.allowedNone = true := by
  induction parts generalizing i with
  | nil => cases ha
  | cons p rest ih =>
    simp only [sendSegmentActs, List.mem_cons] at ha
    rcases ha with ha | ha
    · subst ha
      split <;> rfl
    · exact ih _ ha

theorem relayLoop_mem_allowedNone {env : RelayEnv} {parts : List String}
    {sizes stickers : List Nat} (channels : List Nat) (cursors : List Nat)
    {a : Action}
    (ha : a ∈ (relayLoop env parts sizes stickers channels cursors).1) :
    a.allowedNone = true := by
  induction channels generalizing cursors with
  | nil => cases ha
  | cons ch rest ih =>
    unfold relayLoop at ha
    by_cases hres : env.resolvesChannel ch
    · rw [if_pos hres] at ha
      by_cases hok : env.sendOk ch
      · rw [if_pos hok] at ha
        rcases List.mem_append.mp ha with ha | ha
        · exact sendSegmentActs_mem_allowedNone _ _ _ ha
        · exact ih _ ha
      · rw [if_neg hok] at ha
        rcases List.mem_cons.mp ha with ha | ha
        · subst ha; rfl
        · exact ih _ ha
    · rw [if_neg hres] at ha
      exact ih _ ha

/-- Case analysis of a completed `on_message` run: the channel cache is
never changed, and the trace is either empty (one of the guards fired or
the author is banned) or the delete step followed by the fan-out trace. -/
theorem on_message_cases {env : RelayEnv} {st : WormholeState} {m : Msg}
    {now : Int} {st' : WormholeState} {tr : List Action} {n : Nat}
    (h : on_message env st m now = some (st', tr, n)) :
    st'.cacheChannels = st.cacheChannels ∧
    (tr = [] ∨
      tr = (if env.deleteOk then [Action.deleteSource] else [Action.deleteFailed]) ++
        (relayLoop env
          (env.smartSplit (message_formatter env.guildDisplay m m.customStickerUrls))
          m.attachmentSizes m.standardStickers st'.cacheChannels
          (m.attachmentSizes.map (fun _ => 0))).1) := by
  unfold on_message at h
  split at h
  · simp only [Option.some.injEq, Prod.mk.injEq] at h
    exact ⟨by rw [← h.1], Or.inl h.2.1.symm⟩
  · split at h
    · simp only [Option.some.injEq, Prod.mk.injEq] at h
      exact ⟨by rw [← h.1], Or.inl h.2.1.symm⟩
    · split at h
      · simp only [Option.some.injEq, Prod.mk.injEq] at h
        exact ⟨by rw [← h.1], Or.inl h.2.1.symm⟩
      · split at h
        · cases h
        · rename_i st1 heq
          simp only [Option.some.injEq, Prod.mk.injEq] at h
          exact ⟨by rw [← h.1]; exact check_banned_cache heq, Or.inl h.2.1.symm⟩
        · rename_i st1 heq
          simp only [Option.some.injEq, Prod.mk.injEq] at h
          refine ⟨?_, ?_⟩
          · rw [← h.1]
            exact check_banned_cache heq
          · right
            rw [← h.1]
            exact h.2.1.symm

/-- C3 (amended): mentions are not rewritten in the relayed text; instead
every destination send is performed with
`allowed_mentions=discord.AllowedMentions.none()`, which suppresses all
user, role, channel and broadcast pings while leaving the mention text
verbatim. -/
theorem C3_allowed_mentions (env : RelayEnv) (st : WormholeState) (m : Msg)
    (now : Int) (st' : WormholeState) (tr : List Action) (n : Nat)
    (h : on_message env st m now = some (st', tr, n)) :
    ∀ a ∈ tr, a.allowedNone = true := by
  obtain ⟨-, htr | htr⟩ := on_message_cases h
  · subst htr
    intro a ha
    cases ha
  · subst htr
    intro a ha
    rcases List.mem_append.mp ha with ha | ha
    · by_cases hd : env.deleteOk
      · rw [if_pos hd] at ha
        rcases List.mem_cons.mp ha with ha | ha
        · subst ha; rfl
        · cases ha
      · rw [if_neg hd] at ha
        rcases List.mem_cons.mp ha with ha | ha
        · subst ha; rfl
        · cases ha
    · exact relayLoop_mem_allowedNone _ _ ha

/-- C3 witness: the amended theorem applied to the concrete relay of
`msgMention`, on the one send of its trace. -/
theorem C3_witness :
    (Action.sendMsg 1 "**[g] bob:** hi @everyone\n" [] [] true true).allowedNone
      = true := by
  exact C3_allowed_mentions envEx stPatterns msgMention 0 stPatterns
    [Action.deleteSource,
     Action.sendMsg 1 "**[g] bob:** hi @everyone\n" [] [] true true] 1
    (by decide) _ (by decide)

/-- C3 as stated is false on the code: relaying a message whose content is
"hi @everyone" sends a text that still contains the raw broadcast mention
"@everyone" (the second conjunct exhibits it as a literal substring); no
placeholder token replaces it.  `on_message` passes the content through
`_message_formatter` untouched and neutralizes pings only via the
`allowed_mentions` flag of each send. -/
theorem C3_counterexample :
    on_message envEx stPatterns msgMention 0 =
      some (stPatterns,
        [Action.deleteSource,
         Action.sendMsg 1 ("**[g] bob:** hi " ++ "@everyone" ++ "\n") [] [] true true],
        1) ∧
    "**[g] bob:** hi " ++ "@everyone" ++ "\n" = "**[g] bob:** hi @everyone\n" := by
  exact ⟨by decide, by decide⟩

/-- C10: if the author is a bot, or the content starts with the command
prefix, or the source channel is not in the registered wormhole-channel
cache, `on_message` returns with an empty trace (nothing deleted, nothing
sent) and the state - registry, ban and pattern tables and caches -
unchanged. -/
theorem C10_guards (env : RelayEnv) (st : WormholeState) (m : Msg) (now : Int)
    (h : m.authorIsBot = true ∨ strStartsWith m.content env.commandPref = true ∨
         st.cacheChannels.contains m.channelId = false) :
    on_message env st m now = some (st, [], 0) := by
  by_cases h1 : m.authorIsBot = true
  · simp [on_message, h1]
  · by_cases h2 : strStartsWith m.content env.commandPref = true
    · simp [on_message, h1, h2]
    · have h3 : st.cacheChannels.contains m.channelId = false := by
        rcases h with h | h | h
        · exact absurd h h1
        · exact absurd h h2
        · exact h
      have h3m : ¬ m.channelId ∈ st.cacheChannels := by simpa using h3
      simp [on_message, h1, h2, h3, h3m]

/-- C10 witness: a bot-authored message on the empty state. -/
theorem C10_witness :
    on_message envEx stEmpty msgBot 0 = some (stEmpty, [], 0) := by
  exact C10_guards envEx stEmpty msgBot 0 (Or.inl rfl)

theorem sendSegmentActs_mem_isSend {ch : Nat} {cursors stickers : List Nat}
    (parts : List String) (i last : Nat) {a : Action}
    (ha : a ∈ sendSegmentActs ch cursors stickers parts i last) :
    a.isSend = true := by
  induction parts generalizing i with
  | nil => cases ha
  | cons p rest ih =>
    simp only [sendSegmentActs, List.mem_cons] at ha
    rcases ha with ha | ha
    · subst ha
      split <;> rfl
    · exact ih _ ha

theorem relayLoop_not_delete {env : RelayEnv} {parts : List String}
    {sizes stickers : List Nat} (channels : List Nat) (cursors : List Nat) :
    Action.deleteSource ∉ (relayLoop env parts sizes stickers channels cursors).1 := by
  intro ha
  induction channels generalizing cursors with
  | nil => cases ha
  | cons ch rest ih =>
    unfold relayLoop at ha
    by_cases hres : env.resolvesChannel ch
    · rw [if_pos hres] at ha
      by_cases hok : env.sendOk ch
      · rw [if_pos hok] at ha
        rcases List.mem_append.mp ha with ha | ha
        · exact absurd (sendSegmentActs_mem_isSend _ _ _ ha) (by decide)
        · exact ih _ ha
      · rw [if_neg hok] at ha
        rcases List.mem_cons.mp ha with ha | ha
        · cases ha
        · exact ih _ ha
    · rw [if_neg hres] at ha
      exact ih _ ha

theorem dropWhile_append_of_all {α : Type} {p : α → Bool} {l1 l2 : List α}
    (h : ∀ a ∈ l1, p a = true) : (l1 ++ l2).dropWhile p = l2.dropWhile p := by
  induction l1 with
  | nil => rfl
  | cons a rest ih =>
    rw [List.cons_append, List.dropWhile_cons, if_pos (h a (List.mem_cons_self a rest))]
    exact ih (fun x hx => h x (List.mem_cons_of_mem _ hx))

theorem not_mem_dropWhile {α : Type} {p : α → Bool} {l : List α} {x : α}
    (h : x ∉ l) : x ∉ l.dropWhile p := by
  intro hx
  exact h ((List.dropWhile_sublist p).subset hx)

/-- C8 (amended): the source message is deleted immediately after the
attachments and stickers are captured and before formatting and fan-out:
in every completed `on_message` run, no deletion occurs at or after the
first destination send, i.e. deletion strictly precedes every delivery
rather than following them. -/
theorem C8_delete_before_sends (env : RelayEnv) (st : WormholeState) (m : Msg)
    (now : Int) (st' : WormholeState) (tr : List Action) (n : Nat)
    (h : on_message env st m now = some (st', tr, n)) :
    Action.deleteSource ∉ tr.dropWhile (fun a => ! a.isSend) := by
  obtain ⟨-, htr | htr⟩ := on_message_cases h
  · subst htr
    intro hx
    cases hx
  · subst htr
    rw [dropWhile_append_of_all ?hall]
    case hall =>
      intro a ha
      by_cases hd : env.deleteOk
      · rw [if_pos hd] at ha
        rcases List.mem_cons.mp ha with ha | ha
        · subst ha; rfl
        · cases ha
      · rw [if_neg hd] at ha
        rcases List.mem_cons.mp ha with ha | ha
        · subst ha; rfl
        · cases ha
    exact not_mem_dropWhile (relayLoop_not_delete _ _)

/-- C8 as stated is false on the code: `message.delete()` runs before the
fan-out loop.  In the concrete run below the trace starts with the
deletion and its last element is a destination send: delivery happens
after the deletion, so deletion is not the last step. -/
theorem C8_counterexample :
    on_message envEx stTwoChannels msgDigits 0 =
      some (stTwoChannels,
        [Action.deleteSource,
         Action.sendMsg 1 "**[g] bob:** 12\n" [] [] true true,
         Action.sendMsg 2 "**[g] bob:** 12\n" [] [] true true], 2) ∧
    [Action.deleteSource,
     Action.sendMsg 1 "**[g] bob:** 12\n" [] [] true true,
     Action.sendMsg 2 "**[g] bob:** 12\n" [] [] true true].getLast? =
      some (Action.sendMsg 2 "**[g] bob:** 12\n" [] [] true true) ∧
    (Action.sendMsg 2 "**[g] bob:** 12\n" [] [] true true).isSend = true := by
  exact ⟨by decide, by decide, rfl⟩

/-- C8 witness: the amended theorem applied to the concrete run of
`C8_counterexample`. -/
theorem C8_witness :
    Action.deleteSource ∉
      ([Action.deleteSource,
        Action.sendMsg 1 "**[g] bob:** 12\n" [] [] true true,
        Action.sendMsg 2 "**[g] bob:** 12\n" [] [] true true].dropWhile
          (fun a => ! a.isSend)) := by
  exact C8_delete_before_sends envEx stTwoChannels msgDigits 0 stTwoChannels
    [Action.deleteSource,
     Action.sendMsg 1 "**[g] bob:** 12\n" [] [] true true,
     Action.sendMsg 2 "**[g] bob:** 12\n" [] [] true true] 2 (by decide)

/-- Reduction of a relayed `on_message` run: when no guard fires and the
author has no ban entry, the run deletes the source and fans out over the
cached channels. -/
theorem on_message_run {env : RelayEnv} {st : WormholeState} {m : Msg} {now : Int}
    (hbot : m.authorIsBot = false)
    (hpref : strStartsWith m.content env.commandPref = false)
    (hreg : st.cacheChannels.contains m.channelId = true)
    (hban : banLookup st.banList m.authorName = none) :
    on_message env st m now =
      some (st,
        (if env.deleteOk then [Action.deleteSource] else [Action.deleteFailed]) ++
          (relayLoop env
            (env.smartSplit (message_formatter env.guildDisplay m m.customStickerUrls))
            m.attachmentSizes m.standardStickers st.cacheChannels
            (m.attachmentSizes.map (fun _ => 0))).1,
        (relayLoop env
          (env.smartSplit (message_formatter env.guildDisplay m m.customStickerUrls))
          m.attachmentSizes m.standardStickers st.cacheChannels
          (m.attachmentSizes.map (fun _ => 0))).2) := by
  have hc : check_if_member_banned st m.authorName now = some (false, st) := by
    simp only [check_if_member_banned, hban]
  simp only [on_message, hbot, hpref, hreg, hc, Bool.false_eq_true, if_false,
    Bool.not_true]

theorem relayLoop_count_eq_countP {env : RelayEnv} {parts : List String}
    {sizes stickers : List Nat} (channels : List Nat) (cursors : List Nat)
    (hres : ∀ ch ∈ channels, env.resolvesChannel ch = true) :
    (relayLoop env parts sizes stickers channels cursors).2 =
      channels.countP (fun ch => env.sendOk ch) := by
  induction channels generalizing cursors with
  | nil => rfl
  | cons ch rest ih =>
    have hr := hres ch (List.mem_cons_self ch rest)
    have hrest := fun c hc => hres c (List.mem_cons_of_mem _ hc)
    unfold relayLoop
    rw [if_pos hr]
    by_cases hok : env.sendOk ch
    · rw [if_pos hok, List.countP_cons_of_pos _ _ (by simpa using hok)]
      rw [ih _ hrest]
    · rw [if_neg hok, List.countP_cons_of_neg _ _ (by simpa using hok)]
      exact ih _ hrest

theorem relayLoop_sendFailed_mem {env : RelayEnv} {parts : List String}
    {sizes stickers : List Nat} (channels : List Nat) (cursors : List Nat)
    (c0 : Nat) (hm : c0 ∈ channels) (hres : env.resolvesChannel c0 = true)
    (hf : env.sendOk c0 = false) :
    Action.sendFailed c0 ∈ (relayLoop env parts sizes stickers channels cursors).1 := by
  induction channels generalizing cursors with
  | nil => cases hm
  | cons ch rest ih =>
    unfold relayLoop
    rcases List.mem_cons.mp hm with he | hm'
    · subst he
      rw [if_pos hres, if_neg (by simp [hf])]
      exact List.mem_cons_self _ _
    · by_cases hr : env.resolvesChannel ch
      · rw [if_pos hr]
        by_cases hok : env.sendOk ch
        · rw [if_pos hok]
          exact List.mem_append_right _ (ih _ hm')
        · rw [if_neg hok]
          exact List.mem_cons_of_mem _ (ih _ hm')
      · rw [if_neg hr]
        exact ih _ hm'

theorem countP_eq_length_sub_one {channels : List Nat} {p : Nat → Bool} {c0 : Nat}
    (hmem : c0 ∈ channels) (hnodup : channels.Nodup)
    (hiff : ∀ ch ∈ channels, (p ch = false ↔ ch = c0)) :
    channels.countP p = channels.length - 1 := by
  induction channels with
  | nil => cases hmem
  | cons a rest ih =>
    rw [List.nodup_cons] at hnodup
    by_cases hac : a = c0
    · subst hac
      have hpa : p a = false := (hiff a (List.mem_cons_self a rest)).mpr rfl
      rw [List.countP_cons_of_neg _ _ (by simp [hpa])]
      have hall : ∀ x ∈ rest, p x = true := by
        intro x hx
        cases hpx : p x
        · exact absurd ((hiff x (List.mem_cons_of_mem _ hx)).mp hpx ▸ hx) hnodup.1
        · rfl
      rw [List.countP_eq_length.mpr hall]
      simp
    · have hpa : p a = true := by
        cases hpx : p a
        · exact absurd ((hiff a (List.mem_cons_self a rest)).mp hpx) hac
        · rfl
      have hm : c0 ∈ rest := by
        rcases List.mem_cons.mp hmem with he | hm'
        · exact absurd he.symm hac
        · exact hm'
      rw [List.countP_cons_of_pos _ _ (by simpa using hpa)]
      rw [ih hm hnodup.2 (fun c hc => hiff c (List.mem_cons_of_mem _ hc))]
      have hpos : 0 < rest.length := List.length_pos.mpr (List.ne_nil_of_mem hm)
      simp only [List.length_cons]
      omega

/-- C7: a send failure on a single destination is caught per destination
and does not interrupt delivery to the remaining ones: over a registered
set of N distinct resolvable channels on which exactly one destination c0
fails, the run completes N - 1 destinations without error and records the
failure of c0 in the trace. -/
theorem C7_failure_isolated (env : RelayEnv) (st : WormholeState) (m : Msg)
    (now : Int) (c0 : Nat)
    (hbot : m.authorIsBot = false)
    (hpref : strStartsWith m.content env.commandPref = false)
    (hreg : st.cacheChannels.contains m.channelId = true)
    (hban : banLookup st.banList m.authorName = none)
    (hres : ∀ ch ∈ st.cacheChannels, env.resolvesChannel ch = true)
    (hiff : ∀ ch ∈ st.cacheChannels, (env.sendOk ch = false ↔ ch = c0))
    (hmem : c0 ∈ st.cacheChannels)
    (hnodup : st.cacheChannels.Nodup) :
    (on_message env st m now).map (fun r => r.2.2) =
      some (st.cacheChannels.length - 1) ∧
    (on_message env st m now).map
      (fun r => decide (Action.sendFailed c0 ∈ r.2.1)) = some true := by
  rw [on_message_run hbot hpref hreg hban]
  constructor
  · rw [Option.map_some']
    rw [relayLoop_count_eq_countP _ _ hres]
    rw [countP_eq_length_sub_one hmem hnodup hiff]
  · rw [Option.map_some', Option.some.injEq]
    rw [decide_eq_true_iff]
    refine List.mem_append_right _ ?_
    exact relayLoop_sendFailed_mem _ _ c0 hmem (hres c0 hmem)
      ((hiff c0 hmem).mpr rfl)

/-- C7 witness: three registered channels, sends to channel 2 forced to
fail: 2 = 3 - 1 destinations still delivered, and the failure of channel 2
recorded. -/
theorem C7_witness :
    (on_message envFail2 stThreeChannels msgDigits 0).map (fun r => r.2.2) =
      some (stThreeChannels.cacheChannels.length - 1) ∧
    (on_message envFail2 stThreeChannels msgDigits 0).map
      (fun r => decide (Action.sendFailed 2 ∈ r.2.1)) = some true := by
  exact C7_failure_isolated envFail2 stThreeChannels msgDigits 0 2 rfl (by decide)
    (by decide) rfl (by decide) (by decide) (by decide) (by decide)

theorem sendSegmentActs_mem_filesOnlyLast {ch : Nat} {cursors stickers : List Nat}
    (parts : List String) (i last : Nat) {a : Action}
    (ha : a ∈ sendSegmentActs ch cursors stickers parts i last) :
    a.filesOnlyLast = true := by
  induction parts generalizing i with
  | nil => cases ha
  | cons p rest ih =>
    simp only [sendSegmentActs, List.mem_cons] at ha
    rcases ha with ha | ha
    · subst ha
      split
      · simp [Action.filesOnlyLast]
      · rfl
    · exact ih _ ha

theorem sendSegmentActs_mem_cursorsZero {ch : Nat} {cursors stickers : List Nat}
    (hz : cursors.all (fun x => x == 0) = true)
    (parts : List String) (i last : Nat) {a : Action}
    (ha : a ∈ sendSegmentActs ch cursors stickers parts i last) :
    a.cursorsZero = true := by
  induction parts generalizing i with
  | nil => cases ha
  | cons p rest ih =>
    simp only [sendSegmentActs, List.mem_cons] at ha
    rcases ha with ha | ha
    · subst ha
      split
      · exact hz
      · rfl
    · exact ih _ ha

theorem relayLoop_mem_filesOnlyLast {env : RelayEnv} {parts : List String}
    {sizes stickers : List Nat} (channels : List Nat) (cursors : List Nat)
    {a : Action}
    (ha : a ∈ (relayLoop env parts sizes stickers channels cursors).1) :
    a.filesOnlyLast = true := by
  induction channels generalizing cursors with
  | nil => cases ha
  | cons ch rest ih =>
    unfold relayLoop at ha
    by_cases hres : env.resolvesChannel ch
    · rw [if_pos hres] at ha
      by_cases hok : env.sendOk ch
      · rw [if_pos hok] at ha
        rcases List.mem_append.mp ha with ha | ha
        · exact sendSegmentActs_mem_filesOnlyLast _ _ _ ha
        · exact ih _ ha
      · rw [if_neg hok] at ha
        rcases List.mem_cons.mp ha with ha | ha
        · subst ha; rfl
        · exact ih _ ha
    · rw [if_neg hres] at ha
      exact ih _ ha

theorem relayLoop_mem_cursorsZero {env : RelayEnv} {parts : List String}
    {sizes stickers : List Nat} (channels : List Nat) (cursors : List Nat)
    (hz : cursors.all (fun x => x == 0) = true) {a : Action}
    (ha : a ∈ (relayLoop env parts sizes stickers channels cursors).1) :
    a.cursorsZero = true := by
  induction channels generalizing cursors with
  | nil => cases ha
  | cons ch rest ih =>
    have hz0 : (sizes.map (fun _ => 0)).all (fun x => x == 0) = true := by
      simp
    unfold relayLoop at ha
    by_cases hres : env.resolvesChannel ch
    · rw [if_pos hres] at ha
      by_cases hok : env.sendOk ch
      · rw [if_pos hok] at ha
        rcases List.mem_append.mp ha with ha | ha
        · exact sendSegmentActs_mem_cursorsZero hz _ _ _ ha
        · exact ih _ hz0 ha
      · rw [if_neg hok] at ha
        rcases List.mem_cons.mp ha with ha | ha
        · subst ha; rfl
        · exact ih _ hz ha
    · rw [if_neg hres] at ha
      exact ih _ hz ha

theorem sendSegmentActs_countP_zero_of_gt {ch ch' : Nat}
    {cursors stickers : List Nat} (parts : List String) (i last : Nat)
    (h : last < i) :
    (sendSegmentActs ch cursors stickers parts i last).countP
      (Action.isLastSendTo ch') = 0 := by
  induction parts generalizing i with
  | nil => rfl
  | cons p rest ih =>
    have hne : ¬ i = last := by omega
    simp only [sendSegmentActs, if_neg hne]
    rw [List.countP_cons_of_neg]
    · exact ih (i + 1) (by omega)
    · simp [Action.isLastSendTo]

theorem sendSegmentActs_countP_le_one {ch ch' : Nat}
    {cursors stickers : List Nat} (parts : List String) (i last : Nat) :
    (sendSegmentActs ch cursors stickers parts i last).countP
      (Action.isLastSendTo ch') ≤ 1 := by
  induction parts generalizing i with
  | nil => simp [sendSegmentActs]
  | cons p rest ih =>
    by_cases he : i = last
    · subst he
      simp only [sendSegmentActs, if_pos rfl]
      rw [List.countP_cons]
      rw [sendSegmentActs_countP_zero_of_gt rest (i + 1) i (by omega)]
      split <;> split <;> simp
    · simp only [sendSegmentActs, if_neg he]
      rw [List.countP_cons_of_neg]
      · exact ih _
      · simp [Action.isLastSendTo]

theorem sendSegmentActs_countP_zero_of_ne {ch ch' : Nat} (hne : ¬ ch = ch')
    {cursors stickers : List Nat} (parts : List String) (i last : Nat) :
    (sendSegmentActs ch cursors stickers parts i last).countP
      (Action.isLastSendTo ch') = 0 := by
  induction parts generalizing i with
  | nil => rfl
  | cons p rest ih =>
    simp only [sendSegmentActs]
    rw [List.countP_cons_of_neg]
    · exact ih (i + 1)
    · split <;> simp [Action.isLastSendTo, hne]

theorem relayLoop_countP_zero_of_not_mem {env : RelayEnv} {parts : List String}
    {sizes stickers : List Nat} {ch : Nat} (channels : List Nat)
    (cursors : List Nat) (h : ch ∉ channels) :
    ((relayLoop env parts sizes stickers channels cursors).1).countP
      (Action.isLastSendTo ch) = 0 := by
  induction channels generalizing cursors with
  | nil => rfl
  | cons ch1 rest ih =>
    simp only [List.mem_cons, not_or] at h
    unfold relayLoop
    by_cases hres : env.resolvesChannel ch1
    · rw [if_pos hres]
      by_cases hok : env.sendOk ch1
      · rw [if_pos hok]
        dsimp only
        rw [List.countP_append]
        rw [sendSegmentActs_countP_zero_of_ne (fun he => h.1 he.symm) _ _]
        rw [ih _ h.2]
      · rw [if_neg hok]
        dsimp only
        rw [List.countP_cons_of_neg _ _ (by simp [Action.isLastSendTo])]
        exact ih _ h.2
    · rw [if_neg hres]
      exact ih _ h.2

theorem relayLoop_countP_le_one {env : RelayEnv} {parts : List String}
    {sizes stickers : List Nat} {ch : Nat} (channels : List Nat)
    (cursors : List Nat) (hnodup : channels.Nodup) :
    ((relayLoop env parts sizes stickers channels cursors).1).countP
      (Action.isLastSendTo ch) ≤ 1 := by
  induction channels generalizing cursors with
  | nil => simp [relayLoop]
  | cons ch1 rest ih =>
    rw [List.nodup_cons] at hnodup
    unfold relayLoop
    by_cases hres : env.resolvesChannel ch1
    · rw [if_pos hres]
      by_cases hok : env.sendOk ch1
      · rw [if_pos hok]
        dsimp only
        rw [List.countP_append]
        by_cases hc : ch1 = ch
        · subst hc
          have h0 : ((relayLoop env parts sizes stickers rest
              (sizes.map (fun _ => 0))).1).countP (Action.isLastSendTo ch1) = 0 :=
            relayLoop_countP_zero_of_not_mem _ _ hnodup.1
          rw [h0]
          simpa using sendSegmentActs_countP_le_one parts 0 (parts.length - 1)
        · rw [sendSegmentActs_countP_zero_of_ne hc _ _]
          simpa using ih _ hnodup.2
      · rw [if_neg hok]
        dsimp only
        rw [List.countP_cons_of_neg _ _ (by simp [Action.isLastSendTo])]
        exact ih _ hnodup.2
    · rw [if_neg hres]
      exact ih _ hnodup.2

/-- C9: in every completed `on_message` run over distinct registered
channels in which every destination send succeeds, files and native
stickers ride only on the final text segment (never on an earlier one),
at most one segment per destination carries them (never repeated), and
every `discord.File` is built from a stream whose cursor is at 0 - the
`seek(0)` after each destination makes the byte payload re-readable for
the next one. -/
theorem C9_attachments_final_segment (env : RelayEnv) (st : WormholeState)
    (m : Msg) (now : Int) (st' : WormholeState) (tr : List Action) (n : Nat)
    (h : on_message env st m now = some (st', tr, n))
    (hnodup : st.cacheChannels.Nodup)
    (_hok : ∀ ch, env.sendOk ch = true) :
    (∀ a ∈ tr, a.filesOnlyLast = true ∧ a.cursorsZero = true) ∧
    (∀ ch, tr.countP (Action.isLastSendTo ch) ≤ 1) := by
  obtain ⟨hcache, htr | htr⟩ := on_message_cases h
  · subst htr
    refine ⟨fun a ha => absurd ha (List.not_mem_nil a), fun ch => by simp⟩
  · subst htr
    have hz : ((m.attachmentSizes.map (fun _ => 0)).all (fun x => x == 0)) = true := by
      simp
    have hnodup' : st'.cacheChannels.Nodup := by rw [hcache]; exact hnodup
    constructor
    · intro a ha
      rcases List.mem_append.mp ha with ha | ha
      · have : a = Action.deleteSource ∨ a = Action.deleteFailed := by
          by_cases hd : env.deleteOk
          · rw [if_pos hd] at ha
            rcases List.mem_cons.mp ha with ha | ha
            · exact Or.inl ha
            · cases ha
          · rw [if_neg hd] at ha
            rcases List.mem_cons.mp ha with ha | ha
            · exact Or.inr ha
            · cases ha
        rcases this with ha | ha <;> subst ha <;> exact ⟨rfl, rfl⟩
      · exact ⟨relayLoop_mem_filesOnlyLast _ _ ha,
          relayLoop_mem_cursorsZero _ _ hz ha⟩
    · intro ch
      rw [List.countP_append]
      have hdel : ((if env.deleteOk then [Action.deleteSource]
          else [Action.deleteFailed]).countP (Action.isLastSendTo ch)) = 0 := by
        by_cases hd : env.deleteOk
        · rw [if_pos hd]; rfl
        · rw [if_neg hd]; rfl
      rw [hdel]
      simpa using relayLoop_countP_le_one _ _ hnodup'

/-- C9 witness: the theorem applied to a run with three text segments, one
attachment and one native sticker over channels 1 and 2; the file-carrying
send is the final segment and is built from cursor 0, and channel 1 has at
most one file-carrying send. -/
theorem C9_witness :
    ((Action.sendMsg 1 "p2" [0] [7] true true).filesOnlyLast = true ∧
     (Action.sendMsg 1 "p2" [0] [7] true true).cursorsZero = true) ∧
    ([Action.deleteSource,
      Action.sendMsg 1 "p0" [] [] false true,
      Action.sendMsg 1 "p1" [] [] false true,
      Action.sendMsg 1 "p2" [0] [7] true true,
      Action.sendMsg 2 "p0" [] [] false true,
      Action.sendMsg 2 "p1" [] [] false true,
      Action.sendMsg 2 "p2" [0] [7] true true].countP
        (Action.isLastSendTo 1)) ≤ 1 := by
  have h := C9_attachments_final_segment envSplit3 stTwoChannels msgWithFile 0
    stTwoChannels
    [Action.deleteSource,
     Action.sendMsg 1 "p0" [] [] false true,
     Action.sendMsg 1 "p1" [] [] false true,
     Action.sendMsg 1 "p2" [0] [7] true true,
     Action.sendMsg 2 "p0" [] [] false true,
     Action.sendMsg 2 "p1" [] [] false true,
     Action.sendMsg 2 "p2" [0] [7] true true] 2
    (by decide) (by decide) (fun ch => rfl)
  exact ⟨h.1 _ (by decide), h.2 1⟩

/-! Lemmas for the channel registry synchronisation claim. -/

theorem channelRemove_eq_of_no_match {l : List ChannelRow} {g c : Nat}
    (h : ∀ r ∈ l, r.2 ≠ c) : channelRemove l g c = l := by
  induction l with
  | nil => rfl
  | cons a rest ih =>
    have ha : (a.1 == g && a.2 == c) = false := by
      have := h a (List.mem_cons_self a rest)
      simp [this]
    unfold channelRemove at *
    rw [List.filter_cons, if_pos (by simp [ha])]
    rw [ih (fun r hr => h r (List.mem_cons_of_mem _ hr))]

theorem channelRemove_map_snd {l : List ChannelRow} {g c : Nat}
    (hnodup : (l.map Prod.snd).Nodup)
    (hguild : ∀ r ∈ l, r.2 = c → r.1 = g) :
    (channelRemove l g c).map Prod.snd = (l.map Prod.snd).erase c := by
  induction l with
  | nil => rfl
  | cons a rest ih =>
    obtain ⟨b1, b2⟩ := a
    rw [List.map_cons] at hnodup
    rw [List.nodup_cons] at hnodup
    by_cases hc : b2 = c
    · subst hc
      have hg : b1 = g := hguild (b1, b2) (List.mem_cons_self _ _) rfl
      subst hg
      have hrest : ∀ r ∈ rest, r.2 ≠ b2 := by
        intro r hr hrc
        refine hnodup.1 ?_
        rw [← hrc]
        exact List.mem_map_of_mem (a := r) Prod.snd hr
      unfold channelRemove
      rw [List.filter_cons, if_neg (by simp)]
      rw [List.map_cons, List.erase_cons_head]
      have := channelRemove_eq_of_no_match (g := b1) hrest
      unfold channelRemove at this
      rw [this]
    · unfold channelRemove
      rw [List.filter_cons, if_pos (by simp [hc])]
      rw [List.map_cons, List.map_cons, List.erase_cons_tail]
      · have := ih hnodup.2 (fun r hr => hguild r (List.mem_cons_of_mem _ hr))
        unfold channelRemove at this
        rw [this]
      · simp [hc]

/-- C6 (amended): a completed register keeps the in-memory channel cache
equal to the channel ids of the store, and a completed unregister does so
provided it is invoked from the guild the channel is registered under (a
cross-guild unregister deletes no store row but still drops the cache
entry, see the counterexample); the mutation is persisted before the cache
is updated, so on persistence failure (and on the AlreadyExists/NotFound
rejections) the cache - indeed the whole state - is left untouched. -/
theorem C6_registry_sync (st : WormholeState) (g c : Nat) (persistOk : Bool)
    (hsync : channelsSynced st)
    (hnodup : (st.storeChannels.map Prod.snd).Nodup)
    (hguild : ∀ r ∈ st.storeChannels, r.2 = c → r.1 = g) :
    channelsSynced (set_wormhole_channel st g c persistOk).1 ∧
    channelsSynced (unset_wormhole_channel st g c persistOk).1 ∧
    ((set_wormhole_channel st g c false).1 = st ∧
     (unset_wormhole_channel st g c false).1 = st) := by
  refine ⟨?_, ?_, ?_, ?_⟩
  · unfold set_wormhole_channel
    by_cases hex : check_existence st c
    · rw [if_pos hex]
      exact hsync
    · rw [if_neg hex]
      by_cases hp : persistOk
      · rw [if_pos hp]
        unfold channelsSynced at *
        simp only [List.map_append, List.map_cons, List.map_nil]
        rw [hsync]
      · rw [if_neg hp]
        exact hsync
  · unfold unset_wormhole_channel
    by_cases hex : check_existence st c
    · rw [if_neg (by simp [hex])]
      by_cases hp : persistOk
      · rw [if_pos hp]
        unfold channelsSynced at *
        dsimp only
        rw [hsync, channelRemove_map_snd hnodup hguild]
      · rw [if_neg hp]
        exact hsync
    · rw [if_pos (by simp [hex])]
      exact hsync
  · unfold set_wormhole_channel
    by_cases hex : check_existence st c
    · rw [if_pos hex]
    · rw [if_neg hex, if_neg (by simp)]
  · unfold unset_wormhole_channel
    by_cases hex : check_existence st c
    · rw [if_neg (by simp [hex]), if_neg (by simp)]
    · rw [if_pos (by simp [hex])]

/-- C6 as stated ("from any guild context") is false on the code: with
channel 10 registered under guild 1, an unregister invoked from guild 2
passes the existence check (which tests the channel id only), reports
success, deletes no store row (`WormholeChannel.remove` filters by guild
AND channel) but still removes the cache entry - cache and store diverge
after a completed mutation. -/
theorem C6_counterexample :
    (unset_wormhole_channel stGuild1 2 10 true).2 = none ∧
    (unset_wormhole_channel stGuild1 2 10 true).1.storeChannels = [(1, 10)] ∧
    (unset_wormhole_channel stGuild1 2 10 true).1.cacheChannels = [] ∧
    ¬ channelsSynced (unset_wormhole_channel stGuild1 2 10 true).1 := by
  exact ⟨rfl, rfl, rfl, by decide⟩

/-- C6 witness: the amended theorem applied to `stGuild1` (channel 10
registered under guild 1) with the unregister invoked from guild 1. -/
theorem C6_witness :
    channelsSynced (set_wormhole_channel stGuild1 1 10 true).1 ∧
    channelsSynced (unset_wormhole_channel stGuild1 1 10 true).1 ∧
    ((set_wormhole_channel stGuild1 1 10 false).1 = stGuild1 ∧
     (unset_wormhole_channel stGuild1 1 10 false).1 = stGuild1) := by
  exact C6_registry_sync stGuild1 1 10 true (by decide) (by decide) (by decide)

end Wormhole
